import Mathlib

/-!
Verification of the Emergent orchestration-and-execution core and of the
React frontend component layer (src/frontend/src/components.js).

The backend pipeline (ProviderAdapter, FallbackTemplateEngine, RequestRouter,
ResponseSelector, ProjectMaterializer) is not shipped in this source tree;
those parts are modelled from the specification, as noted on each definition.
The frontend definitions are translated directly from components.js.
-/

/- ===================== Shared string helpers ===================== -/

/-- Model of JavaScript String.prototype.trim: drop leading and trailing
whitespace characters. -/
def jsTrim (s : String) : String :=
  String.mk (((s.data.dropWhile Char.isWhitespace).reverse.dropWhile Char.isWhitespace).reverse)

/-- Model of the JavaScript `x || dflt` idiom on an optional string field:
a missing field and the empty string are both falsy. -/
def jsOr (o : Option String) (dflt : String) : String :=
  match o with
  | some s => if s = "" then dflt else s
  | none => dflt

/-- Substring search on character lists (structurally recursive so that the
kernel can evaluate it). -/
def listContains (needle : List Char) : List Char → Bool
  | [] => decide (needle = [])
  | c :: rest => needle.isPrefixOf (c :: rest) || listContains needle rest

/-- Case-sensitive substring test on strings. -/
def containsStr (hay needle : String) : Bool :=
  listContains needle.data hay.data

/-- Case-insensitive keyword test used for template matching. -/
def promptHas (prompt keyword : String) : Bool :=
  listContains keyword.data (prompt.data.map Char.toLower)

/- ===================== Backend data model (spec section 3) ===================== -/

/-- Modelled from the spec: CodeRequest, an immutable request
{prompt, language, requestedModel}. -/
structure CodeRequest where
  prompt : String
  language : String
  requestedModel : String
deriving DecidableEq, Repr

/-- Modelled from the spec: the status of one adapter invocation. -/
inductive Status
  | Success
  | Failed
  | TimedOut
deriving DecidableEq, Repr

/-- Modelled from the spec: ProviderResult, produced once per adapter
invocation and never mutated. -/
structure ProviderResult where
  providerId : String
  status : Status
  code : Option String
  explanation : Option String
  latency : Nat
  errorDetail : Option String
deriving DecidableEq, Repr

/-- The code carried by a ProviderResult, read as a string. -/
def codeOf (r : ProviderResult) : String := r.code.getD ""

/-- Modelled from the spec: SelectedResponse, the derived immutable pipeline
output; sourceProviderId may be the sentinel "fallback". -/
structure SelectedResponse where
  code : String
  language : String
  explanation : String
  sourceProviderId : String
  qualityScore : Nat
deriving DecidableEq, Repr

/-- Modelled from the spec: the selector-level failure. -/
inductive SelectError
  | NoViableCandidate
deriving DecidableEq, Repr

/- ===================== FallbackTemplateEngine (spec section 4.2) ===================== -/

/-- Modelled from the spec: one entry of the static fallback catalog, keyed
by a task keyword and rendered per requested language. -/
structure Template where
  keyword : String
  pyCode : String
  otherCode : String
deriving DecidableEq, Repr

/-- Render a catalog template for the requested language. -/
def renderTemplate (t : Template) (lang : String) : String :=
  if lang = "python" then t.pyCode else t.otherCode

/-- Modelled from the spec: the static, read-only template catalog
("fibonacci", "rest api skeleton", "calculator", "web scraper"). -/
def catalog : List Template :=
  [ { keyword := "fibonacci",
      pyCode := "def fibonacci(n):\n    if n <= 1:\n        return n\n    return fibonacci(n-1) + fibonacci(n-2)",
      otherCode := "const fibonacci = (n) => n <= 1 ? n : fibonacci(n-1) + fibonacci(n-2);" },
    { keyword := "calculator",
      pyCode := "def calculate(a, op, b):\n    if op == '+':\n        return a + b\n    if op == '-':\n        return a - b\n    if op == '*':\n        return a * b\n    return a / b",
      otherCode := "const calculate = (a, op, b) => op === '+' ? a + b : op === '-' ? a - b : op === '*' ? a * b : a / b;" },
    { keyword := "web scraper",
      pyCode := "import requests\n\ndef scrape(url):\n    response = requests.get(url)\n    return response.text",
      otherCode := "const scrape = async (url) => await (await fetch(url)).text();" },
    { keyword := "rest api",
      pyCode := "from fastapi import FastAPI\n\napp = FastAPI()\n\n@app.get('/')\ndef read_root():\n    return 'ok'",
      otherCode := "const api = (req, res) => res.json('ok');" } ]

/-- Modelled from the spec: FallbackTemplateEngine.match - return the first
catalog template whose keyword occurs in the prompt, rendered for the
requested language and attributed to the "fallback" sentinel provider;
return nothing when no template matches. -/
def fbMatch (req : CodeRequest) : Option SelectedResponse :=
  match catalog.find? (fun t => promptHas req.prompt t.keyword) with
  | some t =>
    some { code := renderTemplate t req.language,
           language := req.language,
           explanation := "Offline template for " ++ t.keyword,
           sourceProviderId := "fallback",
           qualityScore := 50 }
  | none => none

/- ===================== ResponseSelector (spec section 4.4) ===================== -/

/-- Modelled from the spec: the fixed, configured provider priority ranking
(OpenAI, Anthropic, Groq are the registered backends). -/
def providerPriority : List String := ["openai", "anthropic", "groq"]

/-- Position of a provider in a ranking list; providers outside the list rank
after every listed one. -/
def rankAux : List String → String → Nat
  | [], _ => 100
  | p :: ps, pid => if p = pid then 0 else rankAux ps pid + 1

/-- Priority rank of a provider id (lower is preferred). -/
def providerRank (pid : String) : Nat := rankAux providerPriority pid

/-- Modelled from the spec: the deterministic quality score of a successful
result - a fenced code block matching the requested language, a plausible
code length, and a small bonus for an explanation. -/
def score (req : CodeRequest) (r : ProviderResult) : Nat :=
  (if containsStr (codeOf r) ("```" ++ req.language) then 100 else 0) +
  (if 10 ≤ (codeOf r).data.length ∧ (codeOf r).data.length ≤ 10000 then 50 else 0) +
  (if r.explanation.isSome then 10 else 0)

/-- Strict preference between two candidates: higher score first, then lower
provider-priority rank, then lower latency. -/
def beats (req : CodeRequest) (a b : ProviderResult) : Bool :=
  decide (score req b < score req a ∨
    (score req a = score req b ∧ providerRank a.providerId < providerRank b.providerId) ∨
    (score req a = score req b ∧ providerRank a.providerId = providerRank b.providerId ∧
      a.latency < b.latency))

/-- Fold picking the preferred candidate, keeping the earlier one on a tie. -/
def bestOf (req : CodeRequest) (h : ProviderResult) (t : List ProviderResult) : ProviderResult :=
  t.foldl (fun acc r => if beats req r acc then r else acc) h

/-- The best candidate of a list of results, when the list is non-empty. -/
def selBest (req : CodeRequest) : List ProviderResult → Option ProviderResult
  | [] => none
  | h :: t => some (bestOf req h t)

/-- Only results with Success status feed selection. -/
def successResults (results : List ProviderResult) : List ProviderResult :=
  results.filter (fun r => decide (r.status = Status.Success))

/-- Turn a winning ProviderResult into the pipeline's SelectedResponse. -/
def toSelected (req : CodeRequest) (r : ProviderResult) : SelectedResponse :=
  { code := codeOf r,
    language := req.language,
    explanation := r.explanation.getD "",
    sourceProviderId := r.providerId,
    qualityScore := score req r }

/-- Modelled from the spec: ResponseSelector.select - pick the best
successful result; with no successful result use the fallback if present,
otherwise fail with NoViableCandidate. -/
def select (req : CodeRequest) (results : List ProviderResult)
    (fallback : Option SelectedResponse) : Except SelectError SelectedResponse :=
  match selBest req (successResults results) with
  | some m => Except.ok (toSelected req m)
  | none =>
    match fallback with
    | some s => Except.ok s
    | none => Except.error SelectError.NoViableCandidate

/- ===================== RequestRouter (spec section 4.3) ===================== -/

/-- Modelled from the spec: a ProviderAdapter - a provider id together with
its generate behaviour; the latency field of the produced result records how
long the call would take to finish. -/
structure Adapter where
  id : String
  gen : CodeRequest → ProviderResult

/-- Modelled from the spec: the candidate adapter set of a request - all
registered adapters for "auto", otherwise only the named one. -/
def candidates (registry : List Adapter) (req : CodeRequest) : List Adapter :=
  if req.requestedModel = "auto" then registry
  else registry.filter (fun a => decide (a.id = req.requestedModel))

/-- Modelled from the spec: one adapter invocation under the shared
per-request deadline - an invocation still outstanding at the deadline is
recorded as TimedOut; otherwise the adapter's own result is recorded,
attributed to the adapter's id. -/
def invoke (deadline : Nat) (req : CodeRequest) (a : Adapter) : ProviderResult :=
  let r := a.gen req
  if deadline < r.latency then
    { providerId := a.id, status := Status.TimedOut, code := none,
      explanation := none, latency := deadline, errorDetail := some "deadline exceeded" }
  else
    { r with providerId := a.id }

/-- Modelled from the spec: the router's collected result set - one
ProviderResult per invoked adapter. -/
def routeResults (registry : List Adapter) (deadline : Nat) (req : CodeRequest) :
    List ProviderResult :=
  (candidates registry req).map (invoke deadline req)

/-- Modelled from the spec: the router invokes the FallbackTemplateEngine
exactly when no adapter returned Success (including when no adapter was
registered). -/
def routeFallback (registry : List Adapter) (deadline : Nat) (req : CodeRequest) :
    Option SelectedResponse :=
  if (routeResults registry deadline req).all (fun r => decide (r.status ≠ Status.Success)) then
    fbMatch req
  else none

/-- Modelled from the spec: RequestRouter.route - always returns a (possibly
all-failed) result set plus the optional fallback response. -/
def route (registry : List Adapter) (deadline : Nat) (req : CodeRequest) :
    List ProviderResult × Option SelectedResponse :=
  (routeResults registry deadline req, routeFallback registry deadline req)

/-- Modelled from the spec: the wall-clock time at which route completes -
the adapters run concurrently, so the router waits for the slowest of them
or for the shared deadline, whichever comes first. -/
def routeElapsed (registry : List Adapter) (deadline : Nat) (req : CodeRequest) : Nat :=
  min (((candidates registry req).map (fun a => (a.gen req).latency)).foldl max 0) deadline

/-- Modelled from the spec: the generation pipeline - route, then select. -/
def pipeline (registry : List Adapter) (deadline : Nat) (req : CodeRequest) :
    Except SelectError SelectedResponse :=
  select req (routeResults registry deadline req) (routeFallback registry deadline req)

/- ===================== ProjectMaterializer (spec section 4.6) ===================== -/

/-- Modelled from the spec: project lifecycle status. -/
inductive ProjStatus
  | Draft
  | Created
  | Building
  | Deployed
deriving DecidableEq, Repr

/-- Modelled from the spec: one file of a materialized project. -/
structure ProjectFile where
  relativePath : String
  content : String
deriving DecidableEq, Repr

/-- Modelled from the spec: a Project owned by the ProjectMaterializer. -/
structure Project where
  id : Nat
  name : String
  files : List ProjectFile
  status : ProjStatus
deriving DecidableEq, Repr

/-- Entry-point file name used when materializing a single artifact. -/
def entryFileName (lang : String) : String :=
  if lang = "python" then "main.py"
  else if lang = "javascript" then "main.js"
  else "main.txt"

/-- Modelled from the spec: ProjectMaterializer.materialize - expand a
SelectedResponse into a fresh Project holding the artifact at its entry
point. -/
def materialize (fresh : Nat) (s : SelectedResponse) : Project :=
  { id := fresh,
    name := "generated-project",
    files := [{ relativePath := entryFileName s.language, content := s.code }],
    status := ProjStatus.Created }

/-- The persisted layout of a project: each ProjectFile maps to its relative
path with its content bytes. -/
def writeTree (p : Project) : List (String × String) :=
  p.files.map (fun f => (f.relativePath, f.content))

/-- Read one file back from a persisted tree by path. -/
def readBack (tree : List (String × String)) (path : String) : Option String :=
  (tree.find? (fun e => decide (e.1 = path))).map (fun e => e.2)

/- ===================== Frontend embedding (src/frontend/src/components.js) ===================== -/

/-- A request the frontend sends to the backend: target URL and the JSON body
fields in the order they are written in the object literal. -/
structure ApiRequest where
  url : String
  fields : List (String × String)
deriving DecidableEq, Repr

/-- A chat message held in the Dashboard's messages state; isTyping, code and
language are absent (falsy) unless set, as in the JS object literals. -/
structure Msg where
  id : Nat
  message : String
  isUser : Bool
  timestamp : String
  isTyping : Bool := false
  code : Option String := none
  language : Option String := none
deriving DecidableEq, Repr

/-- The declared inner response object of POST /api/chat. -/
structure ChatInner where
  success : Bool
  model_used : String
  code : String
  language : String
  explanation : String
  error : Option String
deriving DecidableEq, Repr

/-- The declared reply shape of POST /api/chat. -/
structure ChatReply where
  success : Bool
  response : ChatInner
deriving DecidableEq, Repr

/-- Outcome of the fetch to /api/chat: a parsed reply, or a thrown error with
its message (network failure or JSON failure). -/
inductive FetchOutcome
  | replied (data : ChatReply)
  | threw (emsg : String)
deriving DecidableEq, Repr

/-- The Dashboard state touched by handleSendMessage. -/
structure ChatState where
  messages : List Msg
  inputMessage : String
deriving DecidableEq, Repr

/-- The success message text built in handleSendMessage from the reply's
model_used, language, code and explanation fields (components.js line 571). -/
def chatSuccessText (r : ChatInner) : String :=
  "**Code Generated Successfully!**\n\n**Model Used:** " ++ r.model_used ++
    "\n\n**Code:**\n```" ++ r.language ++ "\n" ++ r.code ++
    "\n```\n\n**Explanation:** " ++ r.explanation

/-- The failure message text built from the reply's error field, with the JS
falsy default (components.js line 581). -/
def chatErrorText (data : ChatReply) : String :=
  "Error: " ++ jsOr data.response.error "Failed to generate code" ++
    "\n\nTip: Make sure AI API keys are configured in backend/.env"

/-- The catch-branch message text (components.js line 595). -/
def connectionErrorText (emsg : String) : String :=
  "Connection Error: " ++ emsg ++ "\n\nPlease check if the backend is running."

/-- Translation of handleSendMessage (components.js lines 523-602): guard on
the trimmed input, append the user message and a typing indicator, issue the
POST /api/chat request, then on any outcome drop every typing message and
append the response or error message. Returns the new state and the request
issued, if any. -/
def handleSendMessage (st : ChatState) (outcome : FetchOutcome) (now : String) :
    ChatState × Option ApiRequest :=
  if jsTrim st.inputMessage = "" then (st, none)
  else
    let userMessage : Msg :=
      { id := st.messages.length + 1, message := st.inputMessage, isUser := true, timestamp := now }
    let currentMessage := st.inputMessage
    let typingMessage : Msg :=
      { id := st.messages.length + 2, message := "AI is generating code...",
        isUser := false, timestamp := now, isTyping := true }
    let pending := (st.messages ++ [userMessage]) ++ [typingMessage]
    let req : ApiRequest :=
      { url := "/api/chat",
        fields := [("message", currentMessage), ("user_id", "demo-user"),
                   ("language", "python"), ("model", "auto")] }
    match outcome with
    | FetchOutcome.replied data =>
      let withoutTyping := pending.filter (fun m => !m.isTyping)
      if data.success && data.response.success then
        let aiMessage : Msg :=
          { id := withoutTyping.length + 1, message := chatSuccessText data.response,
            isUser := false, timestamp := now,
            code := some data.response.code, language := some data.response.language }
        ({ messages := withoutTyping ++ [aiMessage], inputMessage := "" }, some req)
      else
        let errorMessage : Msg :=
          { id := withoutTyping.length + 1, message := chatErrorText data,
            isUser := false, timestamp := now }
        ({ messages := withoutTyping ++ [errorMessage], inputMessage := "" }, some req)
    | FetchOutcome.threw emsg =>
      let withoutTyping := pending.filter (fun m => !m.isTyping)
      let errorMessage : Msg :=
        { id := withoutTyping.length + 1, message := connectionErrorText emsg,
          isUser := false, timestamp := now }
      ({ messages := withoutTyping ++ [errorMessage], inputMessage := "" }, some req)

/-- The declared reply shape of POST /api/execute. -/
structure ExecReply where
  success : Bool
  output : Option String
  error : Option String
deriving DecidableEq, Repr

/-- Outcome of the fetch to /api/execute. -/
inductive ExecOutcome
  | replied (r : ExecReply)
  | threw (emsg : String)
deriving DecidableEq, Repr

/-- Translation of executeCode (components.js lines 228-250): build the
POST /api/execute request with the JS default for a missing language, and
produce the executionResult that will be rendered - the parsed reply, or on a
throw the object with success false and the thrown message as error. -/
def executeCode (code : String) (language : Option String) (outcome : ExecOutcome) :
    ApiRequest × ExecReply :=
  let req : ApiRequest :=
    { url := "/api/execute",
      fields := [("code", code), ("language", jsOr language "python"),
                 ("user_id", "demo-user")] }
  match outcome with
  | ExecOutcome.replied r => (req, r)
  | ExecOutcome.threw emsg => (req, { success := false, output := none, error := some emsg })

/-- Translation of the execution-result rendering (components.js lines
321-329): on success show output with the JS falsy placeholder, otherwise
show the error field. -/
def renderExecutionResult (r : ExecReply) : String :=
  if r.success then jsOr r.output "Code executed successfully (no output)"
  else "Error: " ++ r.error.getD ""

/- ===================== Helper lemmas ===================== -/

theorem invoke_providerId (deadline : Nat) (req : CodeRequest) (a : Adapter) :
    (invoke deadline req a).providerId = a.id := by
  simp only [invoke]
  split <;> rfl

theorem candidates_subset (registry : List Adapter) (req : CodeRequest) :
    ∀ a ∈ candidates registry req, a ∈ registry := by
  intro a ha
  unfold candidates at ha
  split at ha
  · exact ha
  · exact List.mem_of_mem_filter ha

/- ===================== C4, C6, C7 ===================== -/

/-- C4: RequestRouter.route never fails - it is a total function that always
returns one ProviderResult per invoked adapter, attributed to that adapter,
whatever every adapter did; success or failure of the pipeline is decided
only later by select. -/
theorem route_one_result_per_adapter (registry : List Adapter) (deadline : Nat)
    (req : CodeRequest) :
    (route registry deadline req).1.map (fun r => r.providerId) =
      (candidates registry req).map (fun a => a.id) ∧
    (route registry deadline req).1.length = (candidates registry req).length := by
  constructor
  · show (routeResults registry deadline req).map _ = _
    unfold routeResults
    rw [List.map_map]
    exact List.map_congr_left (fun a _ => invoke_providerId deadline req a)
  · show (routeResults registry deadline req).length = _
    unfold routeResults
    exact List.length_map _ _

/-- C6: materializing a SelectedResponse into a Project and reading the
entry file back from the persisted tree returns content identical to the
original code field. -/
theorem materialize_readback_roundtrip (fresh : Nat) (s : SelectedResponse) :
    readBack (writeTree (materialize fresh s)) (entryFileName s.language) = some s.code := by
  simp [readBack, writeTree, materialize]

/-- C7: an adapter invocation still outstanding at the shared deadline is
recorded in the router's result set as TimedOut - never Failed - and the
router completes no later than the shared deadline. -/
theorem deadline_exceeded_recorded_timedout (registry : List Adapter) (deadline : Nat)
    (req : CodeRequest) (a : Adapter) (ha : a ∈ candidates registry req)
    (hl : deadline < (a.gen req).latency) :
    (invoke deadline req a).status = Status.TimedOut ∧
    (invoke deadline req a).status ≠ Status.Failed ∧
    invoke deadline req a ∈ routeResults registry deadline req ∧
    routeElapsed registry deadline req ≤ deadline := by
  refine ⟨?_, ?_, ?_, ?_⟩
  · simp [invoke, hl]
  · simp [invoke, hl]
  · exact List.mem_map_of_mem _ ha
  · exact min_le_right _ _

/-- The scenario request used by concrete witnesses. -/
def fibReq : CodeRequest :=
  { prompt := "Write a fibonacci function in python", language := "python",
    requestedModel := "auto" }

/-- A registered adapter whose call would take 99 time units. -/
def slowAdapter : Adapter :=
  { id := "openai",
    gen := fun _ =>
      { providerId := "openai", status := Status.Success, code := some "print(1)",
        explanation := none, latency := 99, errorDetail := none } }

/-- Witness for C7: with a 5-unit deadline the 99-unit adapter is recorded as
TimedOut and the router still finishes within the deadline. -/
theorem deadline_exceeded_recorded_timedout_witness :
    (invoke 5 fibReq slowAdapter).status = Status.TimedOut ∧
    (invoke 5 fibReq slowAdapter).status ≠ Status.Failed ∧
    invoke 5 fibReq slowAdapter ∈ routeResults [slowAdapter] 5 fibReq ∧
    routeElapsed [slowAdapter] 5 fibReq ≤ 5 :=
  deadline_exceeded_recorded_timedout [slowAdapter] 5 fibReq slowAdapter
    (by simp [candidates, fibReq]) (by decide)

/- ===================== C8, C10, C9, C5 ===================== -/

/-- C8: executeCode sends POST /api/execute with exactly the body fields
code, language (defaulting to "python" in the JS falsy sense) and user_id,
and the rendering of the reply shows the output field (or the no-output
placeholder) when success is true and the error field when success is
false; a thrown fetch becomes a failed result carrying the thrown message. -/
theorem execute_contract (code : String) (language : Option String) (outcome : ExecOutcome) :
    (executeCode code language outcome).1.url = "/api/execute" ∧
    (executeCode code language outcome).1.fields =
      [("code", code), ("language", jsOr language "python"), ("user_id", "demo-user")] ∧
    (∀ o e, renderExecutionResult { success := true, output := o, error := e } =
      jsOr o "Code executed successfully (no output)") ∧
    (∀ o e, renderExecutionResult { success := false, output := o, error := e } =
      "Error: " ++ e.getD "") ∧
    (∀ emsg, (executeCode code language (ExecOutcome.threw emsg)).2 =
      { success := false, output := none, error := some emsg }) := by
  refine ⟨?_, ?_, ?_, ?_, ?_⟩
  · cases outcome <;> rfl
  · cases outcome <;> rfl
  · intro o e; rfl
  · intro o e; rfl
  · intro emsg; rfl

/-- C10: on an input that trims to the empty string, handleSendMessage
changes nothing - the messages list and inputMessage are untouched and no
request is issued. -/
theorem empty_input_is_noop (st : ChatState) (outcome : FetchOutcome) (now : String)
    (h : jsTrim st.inputMessage = "") :
    handleSendMessage st outcome now = (st, none) := by
  simp [handleSendMessage, h]

/-- Witness for C10 on a whitespace-only input. -/
theorem empty_input_is_noop_witness :
    handleSendMessage { messages := [], inputMessage := "   " }
      (FetchOutcome.threw "down") "10:00" =
      ({ messages := [], inputMessage := "   " }, none) :=
  empty_input_is_noop { messages := [], inputMessage := "   " }
    (FetchOutcome.threw "down") "10:00" (by decide)

/-- C9: after handleSendMessage processes a non-empty input - successful
reply, failed reply, or thrown fetch - no message in the resulting list has
isTyping set: the typing indicator is removed on every exit path. -/
theorem typing_indicator_always_cleared (st : ChatState) (outcome : FetchOutcome) (now : String)
    (h : jsTrim st.inputMessage ≠ "") :
    ∀ m ∈ (handleSendMessage st outcome now).1.messages, m.isTyping = false := by
  intro m hm
  cases outcome with
  | replied data =>
    by_cases hb : (data.success && data.response.success) = true
    · simp only [handleSendMessage, if_neg h, hb, if_true] at hm
      rcases List.mem_append.mp hm with hmem | hmem
      · simpa using List.of_mem_filter hmem
      · rw [List.mem_singleton] at hmem; subst hmem; rfl
    · simp only [handleSendMessage, if_neg h, hb, if_false] at hm
      rcases List.mem_append.mp hm with hmem | hmem
      · simpa using List.of_mem_filter hmem
      · rw [List.mem_singleton] at hmem; subst hmem; rfl
  | threw emsg =>
    simp only [handleSendMessage, if_neg h] at hm
    rcases List.mem_append.mp hm with hmem | hmem
    · simpa using List.of_mem_filter hmem
    · rw [List.mem_singleton] at hmem; subst hmem; rfl

/-- A concrete dashboard state with a non-empty input. -/
def demoChatState : ChatState := { messages := [], inputMessage := "hi" }

/-- Witness for C9: no typing message survives a thrown fetch. -/
theorem typing_indicator_always_cleared_witness :
    ((handleSendMessage demoChatState (FetchOutcome.threw "down") "10:00").1.messages.all
      (fun m => !m.isTyping)) = true := by
  have h := typing_indicator_always_cleared demoChatState (FetchOutcome.threw "down") "10:00"
    (by decide)
  exact List.all_eq_true.mpr (fun m hm => by rw [h m hm]; rfl)

/-- The pending message list of a send - previous messages, the user message
and the typing indicator - with every typing message filtered out, exactly as
the reply handler computes it. -/
def withoutTypingOf (st : ChatState) (now : String) : List Msg :=
  ((st.messages ++
      [({ id := st.messages.length + 1, message := st.inputMessage, isUser := true,
          timestamp := now } : Msg)]) ++
    [({ id := st.messages.length + 2, message := "AI is generating code...",
        isUser := false, timestamp := now, isTyping := true } : Msg)]).filter
    (fun m => !m.isTyping)

/-- C5: on a non-empty input, handleSendMessage issues POST /api/chat with
exactly the body fields message, user_id, language and model; it treats the
reply as successful exactly when both success flags are true, appending a
message built from model_used, code, language and explanation, and otherwise
appends a message built from the reply's error field. -/
theorem chat_contract (st : ChatState) (now : String) (data : ChatReply)
    (h : jsTrim st.inputMessage ≠ "") :
    (handleSendMessage st (FetchOutcome.replied data) now).2 =
      some { url := "/api/chat",
             fields := [("message", st.inputMessage), ("user_id", "demo-user"),
                        ("language", "python"), ("model", "auto")] } ∧
    (data.success = true → data.response.success = true →
      (handleSendMessage st (FetchOutcome.replied data) now).1.messages =
        withoutTypingOf st now ++
          [{ id := (withoutTypingOf st now).length + 1,
             message := chatSuccessText data.response, isUser := false, timestamp := now,
             isTyping := false, code := some data.response.code,
             language := some data.response.language }]) ∧
    (¬(data.success = true ∧ data.response.success = true) →
      (handleSendMessage st (FetchOutcome.replied data) now).1.messages =
        withoutTypingOf st now ++
          [{ id := (withoutTypingOf st now).length + 1, message := chatErrorText data,
             isUser := false, timestamp := now, isTyping := false,
             code := none, language := none }]) := by
  refine ⟨?_, ?_, ?_⟩
  · by_cases hb : (data.success && data.response.success) = true <;>
      simp [handleSendMessage, if_neg h, hb]
  · intro h1 h2
    have hb : (data.success && data.response.success) = true := by rw [h1, h2]; rfl
    simp [handleSendMessage, withoutTypingOf, if_neg h, hb]
  · intro hn
    have hb : (data.success && data.response.success) = false := by
      cases hcs : data.success <;> cases hrs : data.response.success <;> simp_all
    simp [handleSendMessage, withoutTypingOf, if_neg h, hb]

/-- A concrete successful chat reply. -/
def demoChatReply : ChatReply :=
  { success := true,
    response := { success := true, model_used := "gpt-4", code := "print(1)",
                  language := "python", explanation := "prints 1", error := none } }

/-- Witness for C5: the request body and the success-path message on a
concrete state and reply. -/
theorem chat_contract_witness :
    (handleSendMessage demoChatState (FetchOutcome.replied demoChatReply) "10:00").2 =
      some { url := "/api/chat",
             fields := [("message", "hi"), ("user_id", "demo-user"),
                        ("language", "python"), ("model", "auto")] } ∧
    (handleSendMessage demoChatState (FetchOutcome.replied demoChatReply) "10:00").1.messages =
      withoutTypingOf demoChatState "10:00" ++
        [{ id := (withoutTypingOf demoChatState "10:00").length + 1,
           message := chatSuccessText demoChatReply.response, isUser := false,
           timestamp := "10:00", isTyping := false, code := some "print(1)",
           language := some "python" }] :=
  ⟨(chat_contract demoChatState "10:00" demoChatReply (by decide)).1,
   (chat_contract demoChatState "10:00" demoChatReply (by decide)).2.1 rfl rfl⟩

/- ===================== Selector order lemmas ===================== -/

theorem beats_irrefl (req : CodeRequest) (a : ProviderResult) : beats req a a = false := by
  simp only [beats, decide_eq_false_iff_not]
  omega

theorem beats_trans (req : CodeRequest) (a b c : ProviderResult)
    (h1 : beats req a b = true) (h2 : beats req b c = true) : beats req a c = true := by
  simp only [beats, decide_eq_true_eq] at h1 h2 ⊢
  omega

theorem beats_asymm (req : CodeRequest) (a b : ProviderResult)
    (h : beats req a b = true) : beats req b a = false := by
  simp only [beats, decide_eq_true_eq] at h
  simp only [beats, decide_eq_false_iff_not]
  omega

theorem beats_total_key (req : CodeRequest) (a b : ProviderResult)
    (h1 : beats req a b = false) (h2 : beats req b a = false) :
    score req a = score req b ∧
      providerRank a.providerId = providerRank b.providerId ∧ a.latency = b.latency := by
  simp only [beats, decide_eq_false_iff_not] at h1 h2
  omega

theorem bestOf_cons (req : CodeRequest) (h r : ProviderResult) (t : List ProviderResult) :
    bestOf req h (r :: t) = bestOf req (if beats req r h then r else h) t := rfl

theorem bestOf_eq_or_beats (req : CodeRequest) (h : ProviderResult) (t : List ProviderResult) :
    bestOf req h t = h ∨ beats req (bestOf req h t) h = true := by
  induction t generalizing h with
  | nil => exact Or.inl rfl
  | cons r t ih =>
    rw [bestOf_cons]
    by_cases hb : beats req r h = true
    · rw [if_pos hb]
      rcases ih r with h1 | h1
      · right; rw [h1]; exact hb
      · right; exact beats_trans req _ r h h1 hb
    · rw [if_neg hb]
      exact ih h

theorem bestOf_mem (req : CodeRequest) (h : ProviderResult) (t : List ProviderResult) :
    bestOf req h t ∈ h :: t := by
  induction t generalizing h with
  | nil => exact List.mem_singleton.mpr rfl
  | cons r t ih =>
    rw [bestOf_cons]
    by_cases hb : beats req r h = true
    · rw [if_pos hb]
      rcases List.mem_cons.mp (ih r) with h1 | h1
      · rw [h1]; exact List.mem_cons_of_mem _ (List.mem_cons_self _ _)
      · exact List.mem_cons_of_mem _ (List.mem_cons_of_mem _ h1)
    · rw [if_neg hb]
      rcases List.mem_cons.mp (ih h) with h1 | h1
      · rw [h1]; exact List.mem_cons_self _ _
      · exact List.mem_cons_of_mem _ (List.mem_cons_of_mem _ h1)

theorem bestOf_unbeaten (req : CodeRequest) (h : ProviderResult) (t : List ProviderResult) :
    ∀ x ∈ h :: t, beats req x (bestOf req h t) = false := by
  induction t generalizing h with
  | nil =>
    intro x hx
    rw [List.mem_singleton] at hx
    subst hx
    exact beats_irrefl req x
  | cons r t ih =>
    intro x hx
    rw [bestOf_cons]
    by_cases hb : beats req r h = true
    · rw [if_pos hb]
      rcases List.mem_cons.mp hx with rfl | hx'
      · rcases bestOf_eq_or_beats req r t with he | hbt
        · rw [he]; exact beats_asymm req r x hb
        · exact beats_asymm req _ _ (beats_trans req _ r _ hbt hb)
      · exact ih r x hx'
    · rw [if_neg hb]
      have hbf : beats req r h = false := by
        cases hv : beats req r h
        · rfl
        · exact absurd hv hb
      rcases List.mem_cons.mp hx with rfl | hx'
      · exact ih x x (List.mem_cons_self _ _)
      · rcases List.mem_cons.mp hx' with rfl | hx''
        · rcases bestOf_eq_or_beats req h t with he | hbt
          · rw [he]; exact hbf
          · cases hv : beats req x (bestOf req h t)
            · rfl
            · have := beats_trans req x _ h hv hbt
              rw [hbf] at this
              exact absurd this (by simp)
        · exact ih h x (List.mem_cons_of_mem _ hx'')

theorem unbeaten_unique (req : CodeRequest) (l : List ProviderResult)
    (hinj : ∀ a ∈ l, ∀ b ∈ l, score req a = score req b →
      providerRank a.providerId = providerRank b.providerId → a.latency = b.latency → a = b)
    (m₁ m₂ : ProviderResult) (hm₁ : m₁ ∈ l) (hm₂ : m₂ ∈ l)
    (hu₁ : ∀ x ∈ l, beats req x m₁ = false) (hu₂ : ∀ x ∈ l, beats req x m₂ = false) :
    m₁ = m₂ := by
  obtain ⟨hs, hr, hl⟩ := beats_total_key req m₁ m₂ (hu₂ m₁ hm₁) (hu₁ m₂ hm₂)
  exact hinj m₁ hm₁ m₂ hm₂ hs hr hl

theorem providerRank_inj (p₁ p₂ : String) (h₁ : p₁ ∈ providerPriority)
    (h₂ : p₂ ∈ providerPriority) (h : providerRank p₁ = providerRank p₂) : p₁ = p₂ := by
  simp only [providerPriority, List.mem_cons, List.not_mem_nil, or_false] at h₁ h₂
  rcases h₁ with rfl | rfl | rfl <;> rcases h₂ with rfl | rfl | rfl <;>
    first
    | rfl
    | exact absurd h (by decide)

/- ===================== C3 ===================== -/

/-- C3: on a result set with at least one Success, selection is
deterministic - two runs of select on the same set of results, in any
arrival order, return the same SelectedResponse (one result per adapter,
each registered adapter being ranked in the configured priority list). -/
theorem select_deterministic (req : CodeRequest) (l₁ l₂ : List ProviderResult)
    (fb : Option SelectedResponse)
    (hperm : l₁.Perm l₂)
    (hsucc : ∃ r ∈ l₁, r.status = Status.Success)
    (hids : ∀ a ∈ l₁, ∀ b ∈ l₁, a.status = Status.Success → b.status = Status.Success →
      a.providerId = b.providerId → a = b)
    (hranked : ∀ r ∈ l₁, r.status = Status.Success → r.providerId ∈ providerPriority) :
    select req l₁ fb = select req l₂ fb := by
  have hpermS : (successResults l₁).Perm (successResults l₂) := hperm.filter _
  have hinj : ∀ a ∈ successResults l₁, ∀ b ∈ successResults l₁,
      score req a = score req b → providerRank a.providerId = providerRank b.providerId →
      a.latency = b.latency → a = b := by
    intro a ha b hb hs hr _
    have ha' := List.mem_filter.mp ha
    have hb' := List.mem_filter.mp hb
    have has : a.status = Status.Success := of_decide_eq_true ha'.2
    have hbs : b.status = Status.Success := of_decide_eq_true hb'.2
    exact hids a ha'.1 b hb'.1 has hbs
      (providerRank_inj _ _ (hranked a ha'.1 has) (hranked b hb'.1 hbs) hr)
  obtain ⟨r0, hr0, hr0s⟩ := hsucc
  have hr0' : r0 ∈ successResults l₁ := List.mem_filter.mpr ⟨hr0, decide_eq_true hr0s⟩
  cases hs₁ : successResults l₁ with
  | nil => rw [hs₁] at hr0'; exact absurd hr0' (List.not_mem_nil r0)
  | cons h₁ t₁ =>
    cases hs₂ : successResults l₂ with
    | nil =>
      rw [hs₁, hs₂] at hpermS
      exact absurd hpermS.eq_nil (List.cons_ne_nil h₁ t₁)
    | cons h₂ t₂ =>
      have e₁ : select req l₁ fb = Except.ok (toSelected req (bestOf req h₁ t₁)) := by
        unfold select
        rw [hs₁]
        rfl
      have e₂ : select req l₂ fb = Except.ok (toSelected req (bestOf req h₂ t₂)) := by
        unfold select
        rw [hs₂]
        rfl
      rw [e₁, e₂]
      have hmem₁ : bestOf req h₁ t₁ ∈ successResults l₁ := by
        rw [hs₁]; exact bestOf_mem req h₁ t₁
      have hmem₂ : bestOf req h₂ t₂ ∈ successResults l₁ := by
        apply hpermS.symm.subset
        rw [hs₂]; exact bestOf_mem req h₂ t₂
      have hu₁ : ∀ x ∈ successResults l₁, beats req x (bestOf req h₁ t₁) = false := by
        intro x hx
        rw [hs₁] at hx
        exact bestOf_unbeaten req h₁ t₁ x hx
      have hu₂ : ∀ x ∈ successResults l₁, beats req x (bestOf req h₂ t₂) = false := by
        intro x hx
        have hx₂ : x ∈ successResults l₂ := hpermS.subset hx
        rw [hs₂] at hx₂
        exact bestOf_unbeaten req h₂ t₂ x hx₂
      rw [unbeaten_unique req (successResults l₁) hinj _ _ hmem₁ hmem₂ hu₁ hu₂]

/-- A successful OpenAI result with an explanation. -/
def resA : ProviderResult :=
  { providerId := "openai", status := Status.Success,
    code := some "```python\nprint(1)\n```", explanation := some "explains",
    latency := 120, errorDetail := none }

/-- A successful Anthropic result without an explanation. -/
def resB : ProviderResult :=
  { providerId := "anthropic", status := Status.Success,
    code := some "```python\nprint(2)\n```", explanation := none,
    latency := 80, errorDetail := none }

/-- Witness for C3: the two arrival orders of the same two successful
results select the same response. -/
theorem select_deterministic_witness :
    select fibReq [resA, resB] none = select fibReq [resB, resA] none :=
  select_deterministic fibReq [resA, resB] [resB, resA] none
    (List.Perm.swap resB resA []) (by decide) (by decide) (by decide)

/- ===================== Fallback engine lemmas ===================== -/

theorem fbMatch_sourceProviderId (req : CodeRequest) (s : SelectedResponse)
    (h : fbMatch req = some s) : s.sourceProviderId = "fallback" := by
  unfold fbMatch at h
  cases hf : catalog.find? (fun t => promptHas req.prompt t.keyword) with
  | none => rw [hf] at h; exact absurd h (by simp)
  | some t =>
    rw [hf] at h
    rw [← Option.some.inj h]

theorem fbMatch_code_ne_empty (req : CodeRequest) (s : SelectedResponse)
    (h : fbMatch req = some s) : s.code ≠ "" := by
  unfold fbMatch at h
  cases hf : catalog.find? (fun t => promptHas req.prompt t.keyword) with
  | none => rw [hf] at h; exact absurd h (by simp)
  | some t =>
    rw [hf] at h
    have ht : t ∈ catalog := List.mem_of_find?_eq_some hf
    rw [← Option.some.inj h]
    have hcat : ∀ u ∈ catalog, u.pyCode ≠ "" ∧ u.otherCode ≠ "" := by decide
    obtain ⟨hpy, hot⟩ := hcat t ht
    show renderTemplate t req.language ≠ ""
    unfold renderTemplate
    split
    · exact hpy
    · exact hot

/- ===================== C2 ===================== -/

/-- C2: whenever no adapter result has Success status (including the case of
an empty registry), the router invokes the FallbackTemplateEngine and
attaches its result, and any response the pipeline then returns carries the
"fallback" sentinel as its sourceProviderId. -/
theorem fallback_attribution (registry : List Adapter) (deadline : Nat) (req : CodeRequest)
    (hfail : ∀ r ∈ routeResults registry deadline req, r.status ≠ Status.Success) :
    routeFallback registry deadline req = fbMatch req ∧
    (∀ s, pipeline registry deadline req = Except.ok s → s.sourceProviderId = "fallback") := by
  have hall : (routeResults registry deadline req).all
      (fun r => decide (r.status ≠ Status.Success)) = true := by
    rw [List.all_eq_true]
    intro r hr
    exact decide_eq_true (hfail r hr)
  have hfb : routeFallback registry deadline req = fbMatch req := by
    unfold routeFallback
    rw [hall]
    rfl
  refine ⟨hfb, ?_⟩
  intro s hs
  have hempty : successResults (routeResults registry deadline req) = [] := by
    unfold successResults
    rw [List.filter_eq_nil_iff]
    intro r hr
    simp [hfail r hr]
  unfold pipeline select at hs
  rw [hempty, hfb] at hs
  cases hmatch : fbMatch req with
  | none => rw [hmatch] at hs; exact absurd hs (by simp [selBest])
  | some s' =>
    rw [hmatch] at hs
    have hse : s' = s := by
      have : Except.ok (ε := SelectError) s' = Except.ok s := hs
      exact Except.ok.inj this
    rw [← hse]
    exact fbMatch_sourceProviderId req s' hmatch

/-- A registered adapter that always fails with an auth error. -/
def failAdapter : Adapter :=
  { id := "openai",
    gen := fun _ =>
      { providerId := "openai", status := Status.Failed, code := none,
        explanation := none, latency := 3, errorDetail := some "auth" } }

/-- The fallback response the catalog renders for the fibonacci request. -/
def sFib : SelectedResponse :=
  { code := "def fibonacci(n):\n    if n <= 1:\n        return n\n    return fibonacci(n-1) + fibonacci(n-2)",
    language := "python",
    explanation := "Offline template for fibonacci",
    sourceProviderId := "fallback",
    qualityScore := 50 }

/-- Witness for C2: with one failing adapter and the fibonacci prompt, the
router attaches the fallback template and the selected response is
attributed to "fallback". -/
theorem fallback_attribution_witness :
    routeFallback [failAdapter] 30 fibReq = fbMatch fibReq ∧
    sFib.sourceProviderId = "fallback" :=
  ⟨(fallback_attribution [failAdapter] 30 fibReq (by decide)).1,
   (fallback_attribution [failAdapter] 30 fibReq (by decide)).2 sFib (by rfl)⟩

/- ===================== C1 ===================== -/

/-- C1: under the adapter contract that a Success result carries non-empty
code, the pipeline returns either a SelectedResponse with non-empty code or
the explicit NoViableCandidate failure, and the failure happens exactly when
no recorded adapter result has Success status and no fallback template
matches. -/
theorem pipeline_no_empty_artifact (registry : List Adapter) (deadline : Nat)
    (req : CodeRequest)
    (hwf : ∀ a ∈ registry, (a.gen req).status = Status.Success → codeOf (a.gen req) ≠ "") :
    (∀ s, pipeline registry deadline req = Except.ok s → s.code ≠ "") ∧
    (pipeline registry deadline req = Except.error SelectError.NoViableCandidate ↔
      ((∀ r ∈ routeResults registry deadline req, r.status ≠ Status.Success) ∧
        fbMatch req = none)) := by
  have hcode : ∀ r ∈ successResults (routeResults registry deadline req), codeOf r ≠ "" := by
    intro r hr
    obtain ⟨hrm, hrs⟩ := List.mem_filter.mp hr
    have hrs' : r.status = Status.Success := of_decide_eq_true hrs
    obtain ⟨a, ha, rfl⟩ := List.mem_map.mp hrm
    have hareg := candidates_subset registry req a ha
    by_cases hd : deadline < (a.gen req).latency
    · simp [invoke, hd] at hrs'
    · have h2 : codeOf (invoke deadline req a) = codeOf (a.gen req) := by
        simp [invoke, hd, codeOf]
      have h1 : (invoke deadline req a).status = (a.gen req).status := by
        simp [invoke, hd]
      rw [h2]
      exact hwf a hareg (h1 ▸ hrs')
  constructor
  · intro s hs
    unfold pipeline select at hs
    cases hb : selBest req (successResults (routeResults registry deadline req)) with
    | some m =>
      rw [hb] at hs
      have hsm : toSelected req m = s := Except.ok.inj hs
      have hmem : m ∈ successResults (routeResults registry deadline req) := by
        cases hsr : successResults (routeResults registry deadline req) with
        | nil => rw [hsr] at hb; exact absurd hb (by simp [selBest])
        | cons hh tt =>
          rw [hsr] at hb
          have : bestOf req hh tt = m := Option.some.inj hb
          rw [← this]
          exact bestOf_mem req hh tt
      have hc := hcode m hmem
      rw [← hsm]
      exact hc
    | none =>
      rw [hb] at hs
      cases hfb : routeFallback registry deadline req with
      | none => rw [hfb] at hs; exact absurd hs (by simp)
      | some s' =>
        rw [hfb] at hs
        have hse : s' = s := Except.ok.inj hs
        have hfm : fbMatch req = some s' := by
          unfold routeFallback at hfb
          split at hfb
          · exact hfb
          · exact absurd hfb (by simp)
        rw [← hse]
        exact fbMatch_code_ne_empty req s' hfm
  · constructor
    · intro herr
      unfold pipeline select at herr
      cases hb : selBest req (successResults (routeResults registry deadline req)) with
      | some m => rw [hb] at herr; exact absurd herr (by simp)
      | none =>
        rw [hb] at herr
        cases hfb : routeFallback registry deadline req with
        | some s' => rw [hfb] at herr; exact absurd herr (by simp)
        | none =>
          have hempty : successResults (routeResults registry deadline req) = [] := by
            cases hsr : successResults (routeResults registry deadline req) with
            | nil => rfl
            | cons hh tt => rw [hsr] at hb; exact absurd hb (by simp [selBest])
          have hnos : ∀ r ∈ routeResults registry deadline req, r.status ≠ Status.Success := by
            intro r hr hcontra
            have hmem : r ∈ successResults (routeResults registry deadline req) :=
              List.mem_filter.mpr ⟨hr, decide_eq_true hcontra⟩
            rw [hempty] at hmem
            exact absurd hmem (List.not_mem_nil r)
          refine ⟨hnos, ?_⟩
          have hall : (routeResults registry deadline req).all
              (fun r => decide (r.status ≠ Status.Success)) = true := by
            rw [List.all_eq_true]
            intro r hr
            exact decide_eq_true (hnos r hr)
          unfold routeFallback at hfb
          rw [hall] at hfb
          exact hfb
    · rintro ⟨hnos, hnofb⟩
      have hall : (routeResults registry deadline req).all
          (fun r => decide (r.status ≠ Status.Success)) = true := by
        rw [List.all_eq_true]
        intro r hr
        exact decide_eq_true (hnos r hr)
      have hempty : successResults (routeResults registry deadline req) = [] := by
        unfold successResults
        rw [List.filter_eq_nil_iff]
        intro r hr
        simp [hnos r hr]
      have hfb : routeFallback registry deadline req = none := by
        unfold routeFallback
        rw [hall, if_pos rfl]
        exact hnofb
      unfold pipeline select
      rw [hempty, hfb]
      rfl

/-- A registered adapter that succeeds quickly with a fenced python block. -/
def goodAdapter : Adapter :=
  { id := "openai",
    gen := fun _ =>
      { providerId := "openai", status := Status.Success,
        code := some "```python\nprint(1)\n```", explanation := some "prints",
        latency := 2, errorDetail := none } }

/-- The response the pipeline selects for the good adapter. -/
def sGood : SelectedResponse := toSelected fibReq (invoke 30 fibReq goodAdapter)

/-- Witness for C1: the concrete selected response has non-empty code. -/
theorem pipeline_no_empty_artifact_witness : sGood.code ≠ "" :=
  (pipeline_no_empty_artifact [goodAdapter] 30 fibReq (by decide)).1 sGood (by rfl)
